import Mathlib

/-!
# ResourceKey (pkg/app/piped/cloudprovider/kubernetes/resourcekey.go)

A shallow embedding of the resource-key codec and of its classification
predicates, followed by the properties proved about them.

Modelling conventions.

* A Go `string` is embedded as a Lean `String`, read through its list of
  characters `String.data`. The code only ever compares a unit of the string
  with the delimiter `:` or compares whole strings for equality, so the units
  may be read as code points or as bytes (a byte `b` standing for the character
  of code `b`): `:` is one byte, which never occurs inside a multi-byte UTF-8
  sequence, and splitting, joining and equality agree under both readings.
* A Go result `(ResourceKey, error)` is embedded as the pair
  `ResourceKey × Option String`: the second component is `none` for a `nil`
  error and `some msg` for an error whose message is `msg`.
* `fmt.Sprintf` and `strings.Split` belong to the Go standard library; they
  are embedded for the verb (`%s`) and for the one-character separator the
  code uses.
-/

namespace Kubernetes

/-! ## Standard-library functions used by the code -/

/-- Operands that a format string did not consume, as `fmt` prints them at the
end of the output: `%!(EXTRA string=a, string=b)`. -/
def extraOperands : List String → List Char
  | [] => []
  | a :: rest =>
    "%!(EXTRA string=".data ++ a.data ++
      (rest.map fun b => ", string=".data ++ b.data).flatten ++ [')']

/-- Formatting loop of `fmt.Sprintf` over the characters of the format string,
for string operands and the verb `%s`: a `%s` is replaced by the next operand
(by `%!s(MISSING)` when the operands are used up), a character outside a verb
is copied, and operands left over at the end are reported. The other verbs of
`fmt` do not occur in the format string of the code and are not embedded. -/
def sprintfAux : List Char → List String → List Char
  | [], [] => []
  | [], a :: rest => extraOperands (a :: rest)
  | '%' :: 's' :: fmt, [] => "%!s(MISSING)".data ++ sprintfAux fmt []
  | '%' :: 's' :: fmt, a :: rest => a.data ++ sprintfAux fmt rest
  | c :: fmt, args => c :: sprintfAux fmt args

/-- Embedding of `fmt.Sprintf(format, args...)` with string operands. -/
def Sprintf (format : String) (args : List String) : String :=
  ⟨sprintfAux format.data args⟩

/-- Segments of a character list cut at every `sep`: the first segment and the
list of the segments after it. -/
def splitAux (sep : Char) : List Char → List Char × List (List Char)
  | [] => ([], [])
  | c :: cs =>
    let r := splitAux sep cs
    if c = sep then ([], r.1 :: r.2) else (c :: r.1, r.2)

/-- Embedding of `strings.Split(s, sep)` for a separator of one character: the
substrings between the occurrences of `sep`, in order. A string without `sep`
gives the one-element list holding the string itself, so the empty string gives
the list holding one empty string. -/
def Split (s : String) (sep : Char) : List String :=
  let r := splitAux sep s.data
  (r.1 :: r.2).map String.mk

/-! ## The source file -/

/-- Keys of the map `builtInApiVersions`, each with its empty struct value. -/
def builtInApiVersions : List (String × Unit) := [
  ("admissionregistration.k8s.io/v1", ()),
  ("admissionregistration.k8s.io/v1beta1", ()),
  ("apiextensions.k8s.io/v1", ()),
  ("apiextensions.k8s.io/v1beta1", ()),
  ("apiregistration.k8s.io/v1", ()),
  ("apiregistration.k8s.io/v1beta1", ()),
  ("apps/v1", ()),
  ("authentication.k8s.io/v1", ()),
  ("authentication.k8s.io/v1beta1", ()),
  ("authorization.k8s.io/v1", ()),
  ("authorization.k8s.io/v1beta1", ()),
  ("autoscaling/v1", ()),
  ("autoscaling/v2beta1", ()),
  ("autoscaling/v2beta2", ()),
  ("batch/v1", ()),
  ("batch/v1beta1", ()),
  ("certificates.k8s.io/v1beta1", ()),
  ("coordination.k8s.io/v1", ()),
  ("coordination.k8s.io/v1beta1", ()),
  ("extensions/v1beta1", ()),
  ("internal.autoscaling.k8s.io/v1alpha1", ()),
  ("metrics.k8s.io/v1beta1", ()),
  ("networking.k8s.io/v1", ()),
  ("networking.k8s.io/v1beta1", ()),
  ("node.k8s.io/v1beta1", ()),
  ("policy/v1beta1", ()),
  ("rbac.authorization.k8s.io/v1", ()),
  ("rbac.authorization.k8s.io/v1beta1", ()),
  ("scheduling.k8s.io/v1", ()),
  ("scheduling.k8s.io/v1beta1", ()),
  ("storage.k8s.io/v1", ()),
  ("storage.k8s.io/v1beta1", ()),
  ("v1", ())]

/-- Map index expression `v, ok := m[key]`: the value stored under `key`, if
any. -/
def mapLookup (m : List (String × Unit)) (key : String) : Option Unit :=
  match m with
  | [] => none
  | (k, v) :: rest => if key = k then some v else mapLookup rest key

/-- The struct `ResourceKey`. -/
structure ResourceKey where
  APIVersion : String
  Kind : String
  Namespace : String
  Name : String
  deriving DecidableEq, Repr

/-- The method `ResourceKey.String`. -/
def ResourceKey.String (k : ResourceKey) : String :=
  Sprintf "%s:%s:%s:%s" [k.APIVersion, k.Kind, k.Namespace, k.Name]

/-- The method `ResourceKey.IsZero`. -/
def ResourceKey.IsZero (k : ResourceKey) : Bool :=
  k.APIVersion == "" &&
    k.Kind == "" &&
    k.Namespace == "" &&
    k.Name == ""

/-- The method `ResourceKey.IsKubernetesBuiltInResource`. -/
def ResourceKey.IsKubernetesBuiltInResource (k : ResourceKey) : Bool :=
  let ok := (mapLookup builtInApiVersions k.APIVersion).isSome
  ok

/-- The method `ResourceKey.IsDeployment`. -/
def ResourceKey.IsDeployment (k : ResourceKey) : Bool :=
  if k.Kind ≠ "Deployment" then
    false
  else if !k.IsKubernetesBuiltInResource then
    false
  else
    true

/-- The method `ResourceKey.IsConfigMap`. -/
def ResourceKey.IsConfigMap (k : ResourceKey) : Bool :=
  if k.Kind ≠ "ConfigMap" then
    false
  else if !k.IsKubernetesBuiltInResource then
    false
  else
    true

/-- The method `ResourceKey.IsSecret`. -/
def ResourceKey.IsSecret (k : ResourceKey) : Bool :=
  if k.Kind ≠ "Secret" then
    false
  else if !k.IsKubernetesBuiltInResource then
    false
  else
    true

/-- The external object `*unstructured.Unstructured`, seen through the four
accessors that `MakeResourceKey` calls. -/
structure Unstructured where
  GetAPIVersion : String
  GetKind : String
  GetNamespace : String
  GetName : String
  deriving DecidableEq, Repr

/-- The function `MakeResourceKey`. -/
def MakeResourceKey (obj : Unstructured) : ResourceKey :=
  { APIVersion := obj.GetAPIVersion
    Kind := obj.GetKind
    Namespace := obj.GetNamespace
    Name := obj.GetName }

/-- The function `DecodeResourceKey`. The indexing `parts[i]` is only reached
when `parts` has four elements, so the default of `getD` is never used. -/
def DecodeResourceKey (key : String) : ResourceKey × Option String :=
  let parts := Split key ':'
  if parts.length ≠ 4 then
    (⟨"", "", "", ""⟩, some "malformed key")
  else
    ({ APIVersion := parts.getD 0 ""
       Kind := parts.getD 1 ""
       Namespace := parts.getD 2 ""
       Name := parts.getD 3 "" }, none)

/-! ## Vocabulary of the properties -/

/-- The string `s` contains the delimiter `:`. -/
def hasDelim (s : String) : Prop := ':' ∈ s.data

instance (s : String) : Decidable (hasDelim s) := by
  unfold hasDelim; infer_instance

/-- No field of `k` contains the delimiter `:`. -/
def ResourceKey.delimFree (k : ResourceKey) : Prop :=
  ¬ hasDelim k.APIVersion ∧ ¬ hasDelim k.Kind ∧ ¬ hasDelim k.Namespace ∧ ¬ hasDelim k.Name

instance (k : ResourceKey) : Decidable k.delimFree := by
  unfold ResourceKey.delimFree; infer_instance

/-- Number of occurrences of the delimiter `:` in `s`. -/
def delimCount (s : String) : Nat := s.data.count ':'

/-! ## Lemmas on splitting -/

theorem splitAux_of_not_mem (sep : Char) (a : List Char) (h : sep ∉ a) :
    splitAux sep a = (a, []) := by
  induction a with
  | nil => rfl
  | cons c cs ih =>
    have hc : c ≠ sep := fun e => h (by simp [e])
    have hcs : sep ∉ cs := fun e => h (by simp [e])
    simp [splitAux, ih hcs, hc]

theorem splitAux_append (sep : Char) (a rest : List Char) (h : sep ∉ a) :
    splitAux sep (a ++ sep :: rest) =
      (a, (splitAux sep rest).1 :: (splitAux sep rest).2) := by
  induction a with
  | nil => simp [splitAux]
  | cons c cs ih =>
    have hc : c ≠ sep := fun e => h (by simp [e])
    have hcs : sep ∉ cs := fun e => h (by simp [e])
    simp [splitAux, ih hcs, hc]

theorem splitAux_length (sep : Char) (s : List Char) :
    (splitAux sep s).2.length = s.count sep := by
  induction s with
  | nil => rfl
  | cons c cs ih =>
    by_cases hc : c = sep
    · subst hc; simp [splitAux, ih]
    · have hc2 : ¬ (c == sep) = true := by simpa using hc
      simp [splitAux, ih, hc, List.count_cons, hc2]

theorem splitAux_not_mem (sep : Char) (s : List Char) :
    sep ∉ (splitAux sep s).1 ∧ ∀ p ∈ (splitAux sep s).2, sep ∉ p := by
  induction s with
  | nil => simp [splitAux]
  | cons c cs ih =>
    by_cases hc : c = sep
    · subst hc
      simp only [splitAux, if_true]
      refine ⟨by simp, ?_⟩
      intro p hp
      rcases List.mem_cons.mp hp with e | e
      · exact e ▸ ih.1
      · exact ih.2 p e
    · simp only [splitAux, if_neg hc]
      refine ⟨?_, ih.2⟩
      intro hm
      rcases List.mem_cons.mp hm with e | e
      · exact hc e.symm
      · exact ih.1 e

theorem splitAux_join (sep : Char) (s : List Char) :
    (splitAux sep s).1 ++ ((splitAux sep s).2.map fun p => sep :: p).flatten = s := by
  induction s with
  | nil => rfl
  | cons c cs ih =>
    by_cases hc : c = sep
    · subst hc
      simp only [splitAux, if_true, List.map_cons, List.flatten_cons, List.nil_append,
        List.cons_append]
      rw [ih]
    · simp only [splitAux, if_neg hc, List.cons_append]
      rw [ih]

theorem Split_length (s : String) (sep : Char) :
    (Split s sep).length = s.data.count sep + 1 := by
  simp [Split, splitAux_length]

/-! ## Lemmas on the codec -/

theorem String_data (k : ResourceKey) :
    k.String.data =
      k.APIVersion.data ++ ':' :: (k.Kind.data ++ ':' :: (k.Namespace.data ++ ':' :: k.Name.data)) := by
  simp [ResourceKey.String, Sprintf, sprintfAux]

theorem splitAux_String (k : ResourceKey) (h : k.delimFree) :
    splitAux ':' k.String.data =
      (k.APIVersion.data, [k.Kind.data, k.Namespace.data, k.Name.data]) := by
  obtain ⟨h1, h2, h3, h4⟩ := h
  rw [String_data, splitAux_append _ _ _ h1, splitAux_append _ _ _ h2,
    splitAux_append _ _ _ h3, splitAux_of_not_mem _ _ h4]

theorem Split_String (k : ResourceKey) (h : k.delimFree) :
    Split k.String ':' = [k.APIVersion, k.Kind, k.Namespace, k.Name] := by
  simp [Split, splitAux_String k h]

theorem delimCount_String (k : ResourceKey) :
    delimCount k.String =
      3 + (delimCount k.APIVersion + delimCount k.Kind + delimCount k.Namespace +
        delimCount k.Name) := by
  simp only [delimCount, String_data, List.count_append, List.count_cons_self]
  omega

theorem delimCount_pos (s : String) (h : hasDelim s) : 0 < delimCount s :=
  List.count_pos_iff.mpr h

theorem Decode_of_length_ne (s : String) (h : (Split s ':').length ≠ 4) :
    DecodeResourceKey s = (⟨"", "", "", ""⟩, some "malformed key") := by
  simp [DecodeResourceKey, h]

theorem Decode_of_length_eq (s : String) (h : (Split s ':').length = 4) :
    DecodeResourceKey s =
      (⟨(Split s ':').getD 0 "", (Split s ':').getD 1 "", (Split s ':').getD 2 "",
        (Split s ':').getD 3 ""⟩, none) := by
  simp [DecodeResourceKey, h]

/-! ## Properties of the codec -/

/-- C1: round trip. For every key none of whose four fields contains `:`
(empty fields included), decoding the canonical string returns no error and the
key itself. -/
theorem decode_encode_roundtrip (k : ResourceKey) (h : k.delimFree) :
    DecodeResourceKey k.String = (k, none) := by
  have hs := Split_String k h
  rw [Decode_of_length_eq _ (by rw [hs]; rfl), hs]
  rfl

theorem decode_encode_roundtrip_witness :
    (⟨"apps/v1", "Deployment", "", "web"⟩ : ResourceKey).delimFree ∧
      DecodeResourceKey (⟨"apps/v1", "Deployment", "", "web"⟩ : ResourceKey).String =
        (⟨"apps/v1", "Deployment", "", "web"⟩, none) :=
  ⟨by decide, decode_encode_roundtrip _ (by decide)⟩

/-- C2: for every string `s`, decoding returns the malformed-key error exactly
when splitting `s` on `:` does not give 4 parts, that is when `s` does not hold
exactly three `:`; it returns no error exactly when there are 4 parts; and
whenever it returns an error the returned key is the zero key. The strings
`a:b:c`, `a:b:c:d:e` and the empty string are all rejected. -/
theorem decode_malformed_iff (s : String) :
    ((DecodeResourceKey s).2 = some "malformed key" ↔ (Split s ':').length ≠ 4) ∧
    ((DecodeResourceKey s).2 = none ↔ (Split s ':').length = 4) ∧
    ((Split s ':').length ≠ 4 ↔ delimCount s ≠ 3) ∧
    ((DecodeResourceKey s).2 ≠ none → (DecodeResourceKey s).1 = ⟨"", "", "", ""⟩) ∧
    DecodeResourceKey "a:b:c" = (⟨"", "", "", ""⟩, some "malformed key") ∧
    DecodeResourceKey "a:b:c:d:e" = (⟨"", "", "", ""⟩, some "malformed key") ∧
    DecodeResourceKey "" = (⟨"", "", "", ""⟩, some "malformed key") := by
  refine ⟨?_, ?_, ?_, ?_, by decide, by decide, by decide⟩
  · by_cases h : (Split s ':').length = 4
    · simp [Decode_of_length_eq s h, h]
    · simp [Decode_of_length_ne s h, h]
  · by_cases h : (Split s ':').length = 4
    · simp [Decode_of_length_eq s h, h]
    · simp [Decode_of_length_ne s h, h]
  · rw [Split_length]
    unfold delimCount
    omega
  · intro he
    by_cases h : (Split s ':').length = 4
    · exact absurd (by rw [Decode_of_length_eq s h]) he
    · rw [Decode_of_length_ne s h]

theorem decode_malformed_iff_witness :
    (DecodeResourceKey "a:b:c").2 ≠ none ∧
      (DecodeResourceKey "a:b:c").1 = ⟨"", "", "", ""⟩ :=
  ⟨by decide, (decode_malformed_iff "a:b:c").2.2.2.1 (by decide)⟩

/-- C3: encoding is injective on keys without delimiter. Two keys none of
whose fields contains `:` and that have the same canonical string are equal. -/
theorem String_injective_of_delimFree (k1 k2 : ResourceKey)
    (h1 : k1.delimFree) (h2 : k2.delimFree) (h : k1.String = k2.String) : k1 = k2 := by
  have e1 := Split_String k1 h1
  have e2 := Split_String k2 h2
  rw [h, e2] at e1
  cases k1; cases k2
  simp only [List.cons.injEq, and_true] at e1
  obtain ⟨a, b, c, d⟩ := e1
  subst a b c d
  rfl

theorem String_injective_of_delimFree_witness :
    (⟨"v1", "Pod", "prod", "web"⟩ : ResourceKey).delimFree ∧
      (⟨"v1", "Pod", "prod", "web"⟩ : ResourceKey).String =
        (⟨"v1", "Pod", "prod", "web"⟩ : ResourceKey).String ∧
      (⟨"v1", "Pod", "prod", "web"⟩ : ResourceKey) = ⟨"v1", "Pod", "prod", "web"⟩ :=
  ⟨by decide, rfl,
    String_injective_of_delimFree _ _ (by decide) (by decide) rfl⟩

/-- C4: for every key with at least one field containing `:`, the round trip
does not hold. The canonical string splits on `:` into more than 4 parts, and
decoding it does not give back the key with a nil error: it either fails or
returns a key different from the original. -/
theorem roundtrip_fails_of_hasDelim (k : ResourceKey)
    (h : hasDelim k.APIVersion ∨ hasDelim k.Kind ∨ hasDelim k.Namespace ∨ hasDelim k.Name) :
    4 < (Split k.String ':').length ∧
    DecodeResourceKey k.String ≠ (k, none) ∧
    ((DecodeResourceKey k.String).2 ≠ none ∨ (DecodeResourceKey k.String).1 ≠ k) := by
  have hlen : 4 < (Split k.String ':').length := by
    rw [Split_length]
    have hc := delimCount_String k
    unfold delimCount at hc
    rw [hc]
    rcases h with h | h | h | h <;>
      · have := delimCount_pos _ h
        unfold delimCount at this
        omega
  have hd := Decode_of_length_ne k.String (by omega)
  refine ⟨hlen, ?_, Or.inl ?_⟩
  · rw [hd]
    intro e
    cases (Prod.mk.inj e).2
  · rw [hd]
    simp

theorem roundtrip_fails_of_hasDelim_witness :
    hasDelim (⟨"a:b", "c", "", ""⟩ : ResourceKey).APIVersion ∧
      4 < (Split (⟨"a:b", "c", "", ""⟩ : ResourceKey).String ':').length ∧
      DecodeResourceKey (⟨"a:b", "c", "", ""⟩ : ResourceKey).String ≠
        (⟨"a:b", "c", "", ""⟩, none) :=
  ⟨by decide,
    (roundtrip_fails_of_hasDelim ⟨"a:b", "c", "", ""⟩ (Or.inl (by decide))).1,
    (roundtrip_fails_of_hasDelim ⟨"a:b", "c", "", ""⟩ (Or.inl (by decide))).2.1⟩

/-! ## Properties of the classification predicates -/

theorem mapLookup_isSome (m : List (String × Unit)) (key : String) :
    (mapLookup m key).isSome = true ↔ key ∈ m.map Prod.fst := by
  induction m with
  | nil => simp [mapLookup]
  | cons p rest ih =>
    obtain ⟨k, v⟩ := p
    by_cases hk : key = k
    · simp [mapLookup, hk]
    · simp [mapLookup, hk, ih]

/-- C5: a key is a built-in resource exactly when its `APIVersion` is equal,
as a string, to one of the keys of `builtInApiVersions`, which are 33 pairwise
different strings. No prefix, case-insensitive or wildcard matching takes
place: `apps/v1` is built in, while `apps/v2`, `Apps/v1`, `apps/v` and
`apps/v1beta1` are not. -/
theorem IsKubernetesBuiltInResource_iff (k : ResourceKey) :
    (k.IsKubernetesBuiltInResource = true ↔
      k.APIVersion ∈ builtInApiVersions.map Prod.fst) ∧
    (builtInApiVersions.map Prod.fst).length = 33 ∧
    (builtInApiVersions.map Prod.fst).Nodup ∧
    (⟨"apps/v1", k.Kind, k.Namespace, k.Name⟩ : ResourceKey).IsKubernetesBuiltInResource
      = true ∧
    (⟨"apps/v2", k.Kind, k.Namespace, k.Name⟩ : ResourceKey).IsKubernetesBuiltInResource
      = false ∧
    (⟨"Apps/v1", k.Kind, k.Namespace, k.Name⟩ : ResourceKey).IsKubernetesBuiltInResource
      = false ∧
    (⟨"apps/v", k.Kind, k.Namespace, k.Name⟩ : ResourceKey).IsKubernetesBuiltInResource
      = false ∧
    (⟨"apps/v1beta1", k.Kind, k.Namespace, k.Name⟩ : ResourceKey).IsKubernetesBuiltInResource
      = false := by
  refine ⟨?_, by decide, by decide, ?_, ?_, ?_, ?_, ?_⟩
  · exact mapLookup_isSome builtInApiVersions k.APIVersion
  · show (mapLookup builtInApiVersions "apps/v1").isSome = true
    decide
  · show (mapLookup builtInApiVersions "apps/v2").isSome = false
    decide
  · show (mapLookup builtInApiVersions "Apps/v1").isSome = false
    decide
  · show (mapLookup builtInApiVersions "apps/v").isSome = false
    decide
  · show (mapLookup builtInApiVersions "apps/v1beta1").isSome = false
    decide

/-- C6: each kind predicate is the conjunction of a test of `Kind` against a
literal and of the built-in test. `IsDeployment` tests `Deployment`,
`IsConfigMap` tests `ConfigMap`, `IsSecret` tests `Secret`. A `Deployment` of
`apps/v1` is a deployment; a `Deployment` of `custom.io/v1` and a `Pod` of `v1`
are not. -/
theorem kind_predicates_eq (k : ResourceKey) :
    k.IsDeployment = (decide (k.Kind = "Deployment") && k.IsKubernetesBuiltInResource) ∧
    k.IsConfigMap = (decide (k.Kind = "ConfigMap") && k.IsKubernetesBuiltInResource) ∧
    k.IsSecret = (decide (k.Kind = "Secret") && k.IsKubernetesBuiltInResource) ∧
    (⟨"apps/v1", "Deployment", k.Namespace, k.Name⟩ : ResourceKey).IsDeployment = true ∧
    (⟨"custom.io/v1", "Deployment", k.Namespace, k.Name⟩ : ResourceKey).IsDeployment = false ∧
    (⟨"v1", "Pod", k.Namespace, k.Name⟩ : ResourceKey).IsDeployment = false := by
  have hd : k.IsDeployment =
      (decide (k.Kind = "Deployment") && k.IsKubernetesBuiltInResource) := by
    unfold ResourceKey.IsDeployment
    by_cases h : k.Kind = "Deployment" <;> cases hb : k.IsKubernetesBuiltInResource <;> simp [h]
  have hb (v ki : String) : (⟨v, ki, k.Namespace, k.Name⟩ : ResourceKey).IsDeployment =
      (if ki ≠ "Deployment" then false
        else if !(mapLookup builtInApiVersions v).isSome then false else true) := rfl
  refine ⟨hd, ?_, ?_, ?_, ?_, ?_⟩
  · unfold ResourceKey.IsConfigMap
    by_cases h : k.Kind = "ConfigMap" <;> cases hb : k.IsKubernetesBuiltInResource <;> simp [h]
  · unfold ResourceKey.IsSecret
    by_cases h : k.Kind = "Secret" <;> cases hb : k.IsKubernetesBuiltInResource <;> simp [h]
  · rw [hb]; decide
  · rw [hb]; decide
  · rw [hb]; decide

/-! ## Properties of encoding, zero test, decoding and construction -/

/-- C7: the canonical string of a key is `APIVersion`, `Kind`, `Namespace` and
`Name` in that order, joined by `:`, the contents of the fields copied without
escaping; so it holds 3 delimiters plus those that occur in the four fields. -/
theorem String_eq_join (k : ResourceKey) :
    k.String = k.APIVersion ++ ":" ++ k.Kind ++ ":" ++ k.Namespace ++ ":" ++ k.Name ∧
    delimCount k.String =
      3 + (delimCount k.APIVersion + delimCount k.Kind + delimCount k.Namespace +
        delimCount k.Name) := by
  refine ⟨?_, delimCount_String k⟩
  apply String.ext
  rw [String_data]
  simp [String.data_append]

/-- C8: `IsZero` is true exactly when the four fields are all the empty string;
a key with one non-empty field and the three others empty is not zero. -/
theorem IsZero_iff (k : ResourceKey) (s : String) (hs : s ≠ "") :
    (k.IsZero = true ↔
      k.APIVersion = "" ∧ k.Kind = "" ∧ k.Namespace = "" ∧ k.Name = "") ∧
    (⟨s, "", "", ""⟩ : ResourceKey).IsZero = false ∧
    (⟨"", s, "", ""⟩ : ResourceKey).IsZero = false ∧
    (⟨"", "", s, ""⟩ : ResourceKey).IsZero = false ∧
    (⟨"", "", "", s⟩ : ResourceKey).IsZero = false := by
  refine ⟨?_, ?_, ?_, ?_, ?_⟩
  · simp [ResourceKey.IsZero, and_assoc]
  all_goals simp [ResourceKey.IsZero, hs]

theorem IsZero_iff_witness :
    ("x" : String) ≠ "" ∧
      (⟨"", "", "", ""⟩ : ResourceKey).IsZero = true ∧
      (⟨"", "", "x", ""⟩ : ResourceKey).IsZero = false :=
  ⟨by decide,
    (IsZero_iff ⟨"", "", "", ""⟩ "x" (by decide)).1.mpr ⟨rfl, rfl, rfl, rfl⟩,
    (IsZero_iff ⟨"", "", "", ""⟩ "x" (by decide)).2.2.2.1⟩

theorem Split_of_delimCount_three (s : String) (h : delimCount s = 3) :
    ∃ a b c d : String,
      (¬ hasDelim a ∧ ¬ hasDelim b ∧ ¬ hasDelim c ∧ ¬ hasDelim d) ∧
      s = a ++ ":" ++ b ++ ":" ++ c ++ ":" ++ d ∧
      Split s ':' = [a, b, c, d] := by
  have hlen := splitAux_length ':' s.data
  have hmem := splitAux_not_mem ':' s.data
  have hjoin := splitAux_join ':' s.data
  unfold delimCount at h
  rw [h] at hlen
  have hsplit : Split s ':' =
      ((splitAux ':' s.data).1 :: (splitAux ':' s.data).2).map String.mk := rfl
  generalize (splitAux ':' s.data).1 = a at hmem hjoin hsplit
  generalize (splitAux ':' s.data).2 = l at hlen hmem hjoin hsplit
  match l, hlen with
  | [b, c, d], _ =>
    refine ⟨⟨a⟩, ⟨b⟩, ⟨c⟩, ⟨d⟩, ⟨hmem.1, ?_, ?_, ?_⟩, ?_, ?_⟩
    · exact hmem.2 b (by simp)
    · exact hmem.2 c (by simp)
    · exact hmem.2 d (by simp)
    · apply String.ext
      rw [← hjoin]
      simp [String.data_append]
    · rw [hsplit]
      rfl

/-- C9: decoding accepts empty fields. `:::` decodes without error to the key
with four empty fields, which is zero; and every string with exactly three `:`
is made of four delimiter-free segments (any of them possibly empty) joined by
`:`, which decoding assigns in order to `APIVersion`, `Kind`, `Namespace` and
`Name` without error, as for `a::c:`. -/
theorem decode_positional (s : String) (h : delimCount s = 3) :
    (∃ a b c d : String,
      (¬ hasDelim a ∧ ¬ hasDelim b ∧ ¬ hasDelim c ∧ ¬ hasDelim d) ∧
      s = a ++ ":" ++ b ++ ":" ++ c ++ ":" ++ d ∧
      Split s ':' = [a, b, c, d] ∧
      DecodeResourceKey s = (⟨a, b, c, d⟩, none)) ∧
    DecodeResourceKey ":::" = (⟨"", "", "", ""⟩, none) ∧
    (DecodeResourceKey ":::").1.IsZero = true ∧
    DecodeResourceKey "a::c:" = (⟨"a", "", "c", ""⟩, none) := by
  refine ⟨?_, by decide, by decide, by decide⟩
  obtain ⟨a, b, c, d, hfree, hs, hsplit⟩ := Split_of_delimCount_three s h
  refine ⟨a, b, c, d, hfree, hs, hsplit, ?_⟩
  rw [Decode_of_length_eq s (by rw [hsplit]; rfl), hsplit]
  rfl

theorem decode_positional_witness :
    delimCount ":prod::web" = 3 ∧
      ∃ a b c d : String,
        (¬ hasDelim a ∧ ¬ hasDelim b ∧ ¬ hasDelim c ∧ ¬ hasDelim d) ∧
        ":prod::web" = a ++ ":" ++ b ++ ":" ++ c ++ ":" ++ d ∧
        Split ":prod::web" ':' = [a, b, c, d] ∧
        DecodeResourceKey ":prod::web" = (⟨a, b, c, d⟩, none) :=
  ⟨by decide, (decode_positional ":prod::web" (by decide)).1⟩

/-- C10: `MakeResourceKey` copies the four accessor values of the object into
the four fields of the key, unchanged. For the object with API version
`apps/v1`, kind `Deployment`, namespace `prod` and name `web`, the canonical
string of the key is `apps/v1:Deployment:prod:web` and the key is a
deployment. -/
theorem MakeResourceKey_fields (obj : Unstructured) :
    MakeResourceKey obj =
      ⟨obj.GetAPIVersion, obj.GetKind, obj.GetNamespace, obj.GetName⟩ ∧
    (MakeResourceKey obj).APIVersion = obj.GetAPIVersion ∧
    (MakeResourceKey obj).Kind = obj.GetKind ∧
    (MakeResourceKey obj).Namespace = obj.GetNamespace ∧
    (MakeResourceKey obj).Name = obj.GetName ∧
    (MakeResourceKey ⟨"apps/v1", "Deployment", "prod", "web"⟩).String =
      "apps/v1:Deployment:prod:web" ∧
    (MakeResourceKey ⟨"apps/v1", "Deployment", "prod", "web"⟩).IsDeployment = true := by
  refine ⟨rfl, rfl, rfl, rfl, rfl, by decide, by decide⟩

/-! ## Further lemmas on the codec -/

theorem String_append (a b c d : String) :
    (⟨a, b, c, d⟩ : ResourceKey).String = a ++ ":" ++ b ++ ":" ++ c ++ ":" ++ d := by
  apply String.ext
  rw [String_data]
  simp [String.data_append]

theorem Decode_String_of_delimFree (k : ResourceKey) (h : k.delimFree) :
    DecodeResourceKey k.String = (k, none) := by
  have hs := Split_String k h
  rw [Decode_of_length_eq _ (by rw [hs]; rfl), hs]
  rfl

theorem Decode_String_of_not_delimFree (k : ResourceKey) (h : ¬ k.delimFree) :
    DecodeResourceKey k.String = (⟨"", "", "", ""⟩, some "malformed key") := by
  apply Decode_of_length_ne
  rw [Split_length]
  have hc := delimCount_String k
  unfold delimCount at hc
  rw [hc]
  have hpos : 0 < delimCount k.APIVersion ∨ 0 < delimCount k.Kind ∨
      0 < delimCount k.Namespace ∨ 0 < delimCount k.Name := by
    by_cases h1 : hasDelim k.APIVersion
    · exact Or.inl (delimCount_pos _ h1)
    by_cases h2 : hasDelim k.Kind
    · exact Or.inr (Or.inl (delimCount_pos _ h2))
    by_cases h3 : hasDelim k.Namespace
    · exact Or.inr (Or.inr (Or.inl (delimCount_pos _ h3)))
    by_cases h4 : hasDelim k.Name
    · exact Or.inr (Or.inr (Or.inr (delimCount_pos _ h4)))
    exact absurd ⟨h1, h2, h3, h4⟩ h
  unfold delimCount at hpos
  omega

theorem Decode_success (s : String) (h : (DecodeResourceKey s).2 = none) :
    ∃ a b c d : String,
      (¬ hasDelim a ∧ ¬ hasDelim b ∧ ¬ hasDelim c ∧ ¬ hasDelim d) ∧
      s = a ++ ":" ++ b ++ ":" ++ c ++ ":" ++ d ∧
      DecodeResourceKey s = (⟨a, b, c, d⟩, none) := by
  by_cases hl : (Split s ':').length = 4
  · have hc : delimCount s = 3 := by
      rw [Split_length] at hl
      unfold delimCount
      omega
    obtain ⟨a, b, c, d, hfree, hs, hsplit⟩ := Split_of_delimCount_three s hc
    refine ⟨a, b, c, d, hfree, hs, ?_⟩
    rw [Decode_of_length_eq s hl, hsplit]
    rfl
  · rw [Decode_of_length_ne s hl] at h
    cases h

theorem Decode_success_String (s : String) (h : (DecodeResourceKey s).2 = none) :
    (DecodeResourceKey s).1.String = s ∧ (DecodeResourceKey s).1.delimFree := by
  obtain ⟨a, b, c, d, hfree, hs, hd⟩ := Decode_success s h
  rw [hd]
  exact ⟨by rw [String_append]; exact hs.symm, hfree⟩

theorem IsZero_eq_true_iff (k : ResourceKey) :
    k.IsZero = true ↔ k = ⟨"", "", "", ""⟩ := by
  cases k
  simp [ResourceKey.IsZero, and_assoc]

theorem String_eq_colons_iff (k : ResourceKey) :
    k.String = ":::" ↔ k = ⟨"", "", "", ""⟩ := by
  constructor
  · intro h
    have hdata := congrArg String.data h
    rw [String_data] at hdata
    have hlen := congrArg List.length hdata
    simp only [List.length_append, List.length_cons] at hlen
    simp only [List.length_nil] at hlen
    have h1 : k.APIVersion.data = [] := List.length_eq_zero.mp (by omega)
    have h2 : k.Kind.data = [] := List.length_eq_zero.mp (by omega)
    have h3 : k.Namespace.data = [] := List.length_eq_zero.mp (by omega)
    have h4 : k.Name.data = [] := List.length_eq_zero.mp (by omega)
    cases k
    simp only [ResourceKey.mk.injEq]
    exact ⟨String.ext h1, String.ext h2, String.ext h3, String.ext h4⟩
  · intro h
    subst h
    decide

/-! ## Further properties of the classification predicates -/

/-- C11: the zero key is classified as nothing. On the key with four empty
fields, `IsKubernetesBuiltInResource`, `IsDeployment`, `IsConfigMap` and
`IsSecret` are all false, the empty string being no key of
`builtInApiVersions`; and each kind predicate is false on every key whose
`Kind` is not its literal or whose `APIVersion` is not built in. -/
theorem zero_key_not_classified (k : ResourceKey) :
    (⟨"", "", "", ""⟩ : ResourceKey).IsKubernetesBuiltInResource = false ∧
    (⟨"", "", "", ""⟩ : ResourceKey).IsDeployment = false ∧
    (⟨"", "", "", ""⟩ : ResourceKey).IsConfigMap = false ∧
    (⟨"", "", "", ""⟩ : ResourceKey).IsSecret = false ∧
    "" ∉ builtInApiVersions.map Prod.fst ∧
    (k.Kind ≠ "Deployment" ∨ k.IsKubernetesBuiltInResource = false →
      k.IsDeployment = false) ∧
    (k.Kind ≠ "ConfigMap" ∨ k.IsKubernetesBuiltInResource = false →
      k.IsConfigMap = false) ∧
    (k.Kind ≠ "Secret" ∨ k.IsKubernetesBuiltInResource = false →
      k.IsSecret = false) := by
  refine ⟨by decide, by decide, by decide, by decide, by decide, ?_, ?_, ?_⟩
  · intro h
    unfold ResourceKey.IsDeployment
    rcases h with h | h
    · simp [h]
    · simp [h]
  · intro h
    unfold ResourceKey.IsConfigMap
    rcases h with h | h
    · simp [h]
    · simp [h]
  · intro h
    unfold ResourceKey.IsSecret
    rcases h with h | h
    · simp [h]
    · simp [h]

theorem zero_key_not_classified_witness :
    (⟨"custom.io/v1", "Secret", "prod", "token"⟩ : ResourceKey).IsKubernetesBuiltInResource
        = false ∧
      (⟨"custom.io/v1", "Secret", "prod", "token"⟩ : ResourceKey).IsSecret = false ∧
      (⟨"custom.io/v1", "Secret", "prod", "token"⟩ : ResourceKey).Kind ≠ "Deployment" ∧
      (⟨"custom.io/v1", "Secret", "prod", "token"⟩ : ResourceKey).IsDeployment = false :=
  ⟨by decide,
    (zero_key_not_classified ⟨"custom.io/v1", "Secret", "prod", "token"⟩).2.2.2.2.2.2.2
      (Or.inr (by decide)),
    by decide,
    (zero_key_not_classified ⟨"custom.io/v1", "Secret", "prod", "token"⟩).2.2.2.2.2.1
      (Or.inl (by decide))⟩

/-- C12: the built-in test consults `APIVersion` only. Two keys with the same
`APIVersion` get the same answer from `IsKubernetesBuiltInResource`, whatever
their `Kind`, `Namespace` and `Name`; and if they also have the same `Kind`
they get the same answer from `IsDeployment`, `IsConfigMap` and `IsSecret`,
which therefore do not depend on `Namespace` or `Name`. -/
theorem predicates_depend_on_APIVersion_Kind (k1 k2 : ResourceKey)
    (h : k1.APIVersion = k2.APIVersion) :
    k1.IsKubernetesBuiltInResource = k2.IsKubernetesBuiltInResource ∧
    (k1.Kind = k2.Kind →
      k1.IsDeployment = k2.IsDeployment ∧
      k1.IsConfigMap = k2.IsConfigMap ∧
      k1.IsSecret = k2.IsSecret) := by
  have hb : k1.IsKubernetesBuiltInResource = k2.IsKubernetesBuiltInResource := by
    unfold ResourceKey.IsKubernetesBuiltInResource
    rw [h]
  refine ⟨hb, ?_⟩
  intro hk
  unfold ResourceKey.IsDeployment ResourceKey.IsConfigMap ResourceKey.IsSecret
  rw [hb, hk]
  exact ⟨rfl, rfl, rfl⟩

theorem predicates_depend_on_APIVersion_Kind_witness :
    (⟨"apps/v1", "Deployment", "prod", "web"⟩ : ResourceKey).APIVersion =
        (⟨"apps/v1", "Secret", "dev", "api"⟩ : ResourceKey).APIVersion ∧
      (⟨"apps/v1", "Deployment", "prod", "web"⟩ : ResourceKey).IsKubernetesBuiltInResource =
        (⟨"apps/v1", "Secret", "dev", "api"⟩ : ResourceKey).IsKubernetesBuiltInResource ∧
      (⟨"apps/v1", "Deployment", "prod", "web"⟩ : ResourceKey).IsDeployment =
        (⟨"apps/v1", "Deployment", "dev", "api"⟩ : ResourceKey).IsDeployment :=
  ⟨rfl,
    (predicates_depend_on_APIVersion_Kind ⟨"apps/v1", "Deployment", "prod", "web"⟩
      ⟨"apps/v1", "Secret", "dev", "api"⟩ rfl).1,
    ((predicates_depend_on_APIVersion_Kind ⟨"apps/v1", "Deployment", "prod", "web"⟩
      ⟨"apps/v1", "Deployment", "dev", "api"⟩ rfl).2 rfl).1⟩

/-! ## Further properties of the codec -/

/-- C13: reverse round trip. If decoding a string `s` succeeds, the canonical
string of the decoded key is `s` again; hence two strings that decoding accepts
and maps to the same key are equal. -/
theorem encode_decode_roundtrip (s t : String) (hs : (DecodeResourceKey s).2 = none) :
    (DecodeResourceKey s).1.String = s ∧
    ((DecodeResourceKey t).2 = none →
      (DecodeResourceKey t).1 = (DecodeResourceKey s).1 → t = s) := by
  have es := (Decode_success_String s hs).1
  refine ⟨es, ?_⟩
  intro ht hk
  have et := (Decode_success_String t ht).1
  rw [← et, hk, es]

theorem encode_decode_roundtrip_witness :
    (DecodeResourceKey "v1:Pod::web").2 = none ∧
      (DecodeResourceKey "v1:Pod::web").1.String = "v1:Pod::web" :=
  ⟨by decide, (encode_decode_roundtrip "v1:Pod::web" "v1:Pod::web" (by decide)).1⟩

/-- C14: no silent misassignment. Decoding the canonical string of a key `k`
either returns the malformed-key error (with the zero key) or returns `k` with
no error; it succeeds exactly when no field of `k` contains `:`; and when it
succeeds the key it returns is `k`, never another one. -/
theorem decode_String_fails_or_exact (k : ResourceKey) :
    (DecodeResourceKey k.String = (⟨"", "", "", ""⟩, some "malformed key") ∨
      DecodeResourceKey k.String = (k, none)) ∧
    ((DecodeResourceKey k.String).2 = none ↔ k.delimFree) ∧
    ((DecodeResourceKey k.String).2 = none → (DecodeResourceKey k.String).1 = k) := by
  by_cases h : k.delimFree
  · have hd := Decode_String_of_delimFree k h
    refine ⟨Or.inr hd, ?_, ?_⟩
    · rw [hd]
      exact ⟨fun _ => h, fun _ => rfl⟩
    · intro _
      rw [hd]
  · have hd := Decode_String_of_not_delimFree k h
    refine ⟨Or.inl hd, ?_, ?_⟩
    · rw [hd]
      exact ⟨fun e => (nomatch e), fun e => absurd e h⟩
    · rw [hd]
      intro e
      cases e

theorem decode_String_fails_or_exact_witness :
    (DecodeResourceKey (⟨"v1", "Pod", "", "web"⟩ : ResourceKey).String).2 = none ∧
      (DecodeResourceKey (⟨"v1", "Pod", "", "web"⟩ : ResourceKey).String).1 =
        ⟨"v1", "Pod", "", "web"⟩ ∧
      ((DecodeResourceKey (⟨"a:b", "c", "", ""⟩ : ResourceKey).String).2 = none ↔
        (⟨"a:b", "c", "", ""⟩ : ResourceKey).delimFree) :=
  ⟨by decide,
    (decode_String_fails_or_exact ⟨"v1", "Pod", "", "web"⟩).2.2 (by decide),
    (decode_String_fails_or_exact ⟨"a:b", "c", "", ""⟩).2.1⟩

/-- C15: without the delimiter-free precondition `String` is not injective.
The keys with `APIVersion` `a:b`, `Kind` `c` and with `APIVersion` `a`, `Kind`
`b:c` (same `Namespace` and `Name`) are different and have the same canonical
string, so two different keys with one canonical string exist. -/
theorem String_not_injective :
    (⟨"a:b", "c", "ns", "n"⟩ : ResourceKey) ≠ ⟨"a", "b:c", "ns", "n"⟩ ∧
    (⟨"a:b", "c", "ns", "n"⟩ : ResourceKey).String =
      (⟨"a", "b:c", "ns", "n"⟩ : ResourceKey).String ∧
    (∃ k1 k2 : ResourceKey, k1 ≠ k2 ∧ k1.String = k2.String) ∧
    ¬ Function.Injective ResourceKey.String := by
  have hne : (⟨"a:b", "c", "ns", "n"⟩ : ResourceKey) ≠ ⟨"a", "b:c", "ns", "n"⟩ := by decide
  have heq : (⟨"a:b", "c", "ns", "n"⟩ : ResourceKey).String =
      (⟨"a", "b:c", "ns", "n"⟩ : ResourceKey).String := by decide
  exact ⟨hne, heq, ⟨_, _, hne, heq⟩, fun hinj => hne (hinj heq)⟩

/-- C16: every successfully decoded key is delimiter-free. If decoding a
string succeeds, none of the `APIVersion`, `Kind`, `Namespace` and `Name` of
the decoded key contains `:`. -/
theorem decoded_key_delimFree (s : String) (h : (DecodeResourceKey s).2 = none) :
    ¬ hasDelim (DecodeResourceKey s).1.APIVersion ∧
    ¬ hasDelim (DecodeResourceKey s).1.Kind ∧
    ¬ hasDelim (DecodeResourceKey s).1.Namespace ∧
    ¬ hasDelim (DecodeResourceKey s).1.Name :=
  (Decode_success_String s h).2

theorem decoded_key_delimFree_witness :
    (DecodeResourceKey "apps/v1:Deployment:prod:web").2 = none ∧
      ¬ hasDelim (DecodeResourceKey "apps/v1:Deployment:prod:web").1.APIVersion ∧
      ¬ hasDelim (DecodeResourceKey "apps/v1:Deployment:prod:web").1.Kind ∧
      ¬ hasDelim (DecodeResourceKey "apps/v1:Deployment:prod:web").1.Namespace ∧
      ¬ hasDelim (DecodeResourceKey "apps/v1:Deployment:prod:web").1.Name :=
  ⟨by decide, decoded_key_delimFree "apps/v1:Deployment:prod:web" (by decide)⟩

/-- C17: the zero key has a unique canonical string. A key is zero exactly
when its canonical string is `:::`; and a string is accepted by decoding and
mapped to a zero key exactly when it is `:::`. -/
theorem zero_key_canonical_string (k : ResourceKey) (s : String) :
    (k.IsZero = true ↔ k.String = ":::") ∧
    ((DecodeResourceKey s).2 = none ∧ (DecodeResourceKey s).1.IsZero = true ↔
      s = ":::") := by
  refine ⟨?_, ?_⟩
  · rw [IsZero_eq_true_iff, String_eq_colons_iff]
  · constructor
    · rintro ⟨hs, hz⟩
      have es := (Decode_success_String s hs).1
      rw [← es]
      exact (String_eq_colons_iff _).mpr ((IsZero_eq_true_iff _).mp hz)
    · intro e
      subst e
      exact ⟨by decide, by decide⟩

end Kubernetes
